import Mathlib

/-!
Verification development for the pdfkit-layout repository.

The embedding below translates the layout-resolution engine of the
repository into Lean: the `Box` / `Image` / `Text` classes and the `layout`
traversal of `src/index.ts`, together with the `FlexBox` class of
`src/flexbox.ts` (its `getBounds`, `computeChildLayout`, `performLayout`,
`calculateJustifyStart`, `calculateSpaceBetween`, `calculateCrossAxisPosition`
and `calculateCrossAxisSize` methods).

JavaScript numbers are modelled as `Option ℚ`, where `none` stands for NaN
(and for `undefined` flowing into arithmetic, which JavaScript coerces to
NaN).  Objects returned by `getBounds` are modelled by `BoundsR`, whose
`padding` component is `none` exactly when the returned object literal has no
`padding` property (the `absolute` and flex-cache branches of `getBounds`
return `{x, y, width, height}` only, while the plain proportional branch and
the page-derived base also carry `padding`).

The cyclic parent/child object graph is modelled by the upward chain
`Parent`: a node's `parentBox` field is either absent (`Parent.nil`), a
`Box`-family node with its own chain (`Parent.ofBox`), or a `FlexBox`
together with the state of its layout cache and the child's position in its
`children` array (`Parent.ofFlex`).  The `childLayouts` map, keyed by object
identity in the source, is modelled as a list indexed by child position; the
map is born empty, which corresponds to the empty list.
-/

/-- JavaScript number: `none` is NaN (or `undefined` coerced by arithmetic). -/
abbrev JSNum := Option ℚ

/-- Addition on JavaScript numbers: NaN propagates. -/
def jadd : JSNum → JSNum → JSNum
  | some a, some b => some (a + b)
  | _, _ => none

/-- Subtraction on JavaScript numbers: NaN propagates. -/
def jsub : JSNum → JSNum → JSNum
  | some a, some b => some (a - b)
  | _, _ => none

/-- Multiplication on JavaScript numbers: NaN propagates. -/
def jmul : JSNum → JSNum → JSNum
  | some a, some b => some (a * b)
  | _, _ => none

/-- Division on JavaScript numbers: NaN propagates.  Every division in the
source is by a positive constant derived from a nonempty children list
(`performLayout` returns early when `children.length === 0`), so the
divisor-zero case is unreachable there. -/
def jdiv : JSNum → JSNum → JSNum
  | some a, some b => some (a / b)
  | _, _ => none

/-- Measurement mode of a node (`measure` field): pixel-literal or
parent-relative fraction. -/
inductive MeasureMode where
  | proportional : MeasureMode
  | absolute : MeasureMode
deriving DecidableEq, Repr

/-- Flex main-axis direction (`FlexDirection`). -/
inductive Dir where
  | row : Dir
  | col : Dir
deriving DecidableEq, Repr

/-- The `JustifyContent` enumeration of `src/flexbox.ts`. -/
inductive Justify where
  | flexStart : Justify
  | flexEnd : Justify
  | center : Justify
  | spaceBetween : Justify
  | spaceAround : Justify
  | spaceEvenly : Justify
deriving DecidableEq, Repr

/-- The `AlignItems` enumeration of `src/flexbox.ts`. -/
inductive Align where
  | flexStart : Align
  | flexEnd : Align
  | center : Align
  | stretch : Align
deriving DecidableEq, Repr

/-- Geometry-relevant fields of a `Box` (shared by `Image` and `Text`, which
call `super(props)`): private `x`, `y`, `width`, `height`, `measure`, and the
public `padding`, `margin`, `borderWidth`.  Fields are rationals: they model
nodes configured with numeric values. -/
structure BoxGeom where
  x : ℚ
  y : ℚ
  width : ℚ
  height : ℚ
  measure : MeasureMode
  padding : ℚ
  margin : ℚ
  borderWidth : ℚ
deriving DecidableEq, Repr

/-- Fields of a `FlexBox` from `src/flexbox.ts`. -/
structure FlexData where
  x : ℚ
  y : ℚ
  width : ℚ
  height : ℚ
  measure : MeasureMode
  padding : ℚ
  margin : ℚ
  borderWidth : ℚ
  direction : Dir
  justify : Justify
  align : Align
  gap : ℚ
deriving DecidableEq, Repr

/-- A rectangle stored in a `FlexBox`'s `childLayouts` cache. -/
structure Rect where
  x : JSNum
  y : JSNum
  width : JSNum
  height : JSNum
deriving DecidableEq, Repr

/-- The object returned by `getBounds`.  `padding` is `none` when the
returned literal carries no `padding` property (the `absolute` and
flex-cache branches), and `some p` when it does (the plain proportional
branch returns `padding: this.padding`; the page-derived base carries
`padding: 0`). -/
structure BoundsR where
  x : JSNum
  y : JSNum
  width : JSNum
  height : JSNum
  padding : JSNum
deriving DecidableEq, Repr

/-- The page-content anchor for a parentless proportional `Box`: the
`currentPage` argument of `Box.getBounds`, of which only `width`, `height`
and `margins` are read. -/
structure PageRect where
  width : ℚ
  height : ℚ
  marginLeft : ℚ
  marginRight : ℚ
  marginTop : ℚ
  marginBottom : ℚ
deriving DecidableEq, Repr

/-- Upward parent chain of a node, mirroring the `parentBox` references.
`ofFlex` additionally records the current contents of that `FlexBox`
parent's `childLayouts` cache and the child's index in its `children`
array (object-identity keys are modelled by position). -/
inductive Parent where
  | nil : Parent
  | ofBox (g : BoxGeom) (par : Parent) : Parent
  | ofFlex (f : FlexData) (cache : List Rect) (idx : ℕ) (par : Parent) : Parent
deriving DecidableEq, Repr

/-- The `absolute` branch of `getBounds` (identical in `Box` and `FlexBox`):
`{x: x + margin, y: y + margin, width: width - margin * 2, height: height -
margin * 2}`, with no `padding` property. -/
def absoluteRect (x y w h margin : ℚ) : BoundsR :=
  ⟨some (x + margin), some (y + margin),
   some (w - margin * 2), some (h - margin * 2), none⟩

/-- The flex-cache branch of `getBounds`: the cached slot inset by `margin`,
with no `padding` property. -/
def slotStep (slot : Rect) (margin : ℚ) : BoundsR :=
  ⟨jadd slot.x (some margin), jadd slot.y (some margin),
   jsub slot.width (some (margin * 2)), jsub slot.height (some (margin * 2)),
   none⟩

/-- The page-derived base of `Box.getBounds` for a parentless proportional
node: the page rectangle shrunk by its margins, with `padding: 0`. -/
def pageBase (pr : PageRect) : BoundsR :=
  ⟨some pr.marginLeft, some pr.marginTop,
   some (pr.width - pr.marginLeft - pr.marginRight),
   some (pr.height - pr.marginTop - pr.marginBottom), some 0⟩

/-- The plain proportional formula of `Box.getBounds` (src/index.ts lines
119-125): reads `baseSize.padding`, which is `undefined` (NaN in the
arithmetic) when the parent's bounds came from the `absolute` or flex-cache
branch, and returns `padding: this.padding`. -/
def proportionalStep (base : BoundsR) (g : BoxGeom) : BoundsR :=
  ⟨jadd (jadd base.x (jmul base.width (some g.x))) base.padding,
   jadd (jadd base.y (jmul base.height (some g.y))) base.padding,
   jsub (jmul base.width (some g.width)) (jmul base.padding (some 2)),
   jsub (jmul base.height (some g.height)) (jmul base.padding (some 2)),
   some g.padding⟩

/-- Errors thrown by construction and resolution: the construction-time
percentage-unit error, and the two resolution errors of `getBounds` /
`computeChildLayout`. -/
inductive Err where
  | configuration : Err
  | missingAnchor : Err
  | layoutNotComputed : Err
deriving DecidableEq, Repr

/-- `Box.getBounds(currentPage?)` from `src/index.ts`: absolute branch; then
the parentless-and-pageless throw; then the flex-parent cache lookup; then
the plain proportional formula over the parent's bounds (or the page-derived
base when there is no parent). -/
def boxGetBounds (g : BoxGeom) (par : Parent) (page : Option PageRect) :
    Except Err BoundsR :=
  if g.measure = MeasureMode.absolute then
    Except.ok (absoluteRect g.x g.y g.width g.height g.margin)
  else
    match par, page with
    | Parent.nil, none => Except.error Err.missingAnchor
    | Parent.ofFlex _ cache i _, _ =>
        match cache.get? i with
        | none => Except.error Err.layoutNotComputed
        | some slot => Except.ok (slotStep slot g.margin)
    | Parent.ofBox pg ppar, _ =>
        match boxGetBounds pg ppar page with
        | Except.error e => Except.error e
        | Except.ok base => Except.ok (proportionalStep base g)
    | Parent.nil, some pr => Except.ok (proportionalStep (pageBase pr) g)

/-- `FlexBox.getBounds(currentPage?)` from `src/flexbox.ts`: absolute
branch; then an unconditional throw when there is no parent (a `FlexBox`
never falls back to the page); then the flex-parent cache lookup; then the
older proportional formula `{x: base.x + base.width * x, ...}`, which reads
no `padding` off the base and returns none. -/
def flexGetBounds (f : FlexData) (par : Parent) (page : Option PageRect) :
    Except Err BoundsR :=
  if f.measure = MeasureMode.absolute then
    Except.ok (absoluteRect f.x f.y f.width f.height f.margin)
  else
    match par with
    | Parent.nil => Except.error Err.missingAnchor
    | Parent.ofFlex _ cache i _ =>
        match cache.get? i with
        | none => Except.error Err.layoutNotComputed
        | some slot => Except.ok (slotStep slot f.margin)
    | Parent.ofBox pg ppar =>
        match boxGetBounds pg ppar page with
        | Except.error e => Except.error e
        | Except.ok base =>
            Except.ok ⟨jadd base.x (jmul base.width (some f.x)),
                       jadd base.y (jmul base.height (some f.y)),
                       jmul base.width (some f.width),
                       jmul base.height (some f.height), none⟩

/-- What `performLayout` can learn about one child: every `Box`, `Image`,
`Text` and `FlexBox` exposes `getRequestedWidth` / `getRequestedHeight` /
`getMeasure` (the `isMeasurable` duck-type check succeeds); any other
`LayoutNode` implementation contributes zero sizes. -/
inductive ChildKind where
  | measurable (width height : ℚ) (measure : MeasureMode) : ChildKind
  | unmeasurable : ChildKind
deriving DecidableEq, Repr

/-- `FlexBox.calculateJustifyStart`: the main-axis offset of the first child
derived from `justifyContent` and the remaining space. -/
def calcJustifyStart (j : Justify) (childCount : ℕ) (remaining : JSNum) :
    JSNum :=
  match j with
  | Justify.flexStart => some 0
  | Justify.flexEnd => remaining
  | Justify.center => jdiv remaining (some 2)
  | Justify.spaceBetween => some 0
  | Justify.spaceAround => jdiv remaining (some ((childCount : ℚ) * 2))
  | Justify.spaceEvenly => jdiv remaining (some ((childCount : ℚ) + 1))

/-- `FlexBox.calculateSpaceBetween`: the extra spacing inserted between
consecutive children. -/
def calcSpaceBetween (j : Justify) (remaining : JSNum) (childCount : ℕ) :
    JSNum :=
  match j with
  | Justify.spaceBetween =>
      if 1 < childCount then jdiv remaining (some ((childCount : ℚ) - 1))
      else some 0
  | Justify.spaceAround => jdiv remaining (some (childCount : ℚ))
  | Justify.spaceEvenly => jdiv remaining (some ((childCount : ℚ) + 1))
  | _ => some 0

/-- `FlexBox.calculateCrossAxisPosition`. -/
def calcCrossPos (a : Align) (childCross crossAxis : JSNum) : JSNum :=
  match a with
  | Align.flexStart => some 0
  | Align.flexEnd => jsub crossAxis childCross
  | Align.center => jdiv (jsub crossAxis childCross) (some 2)
  | Align.stretch => some 0

/-- `FlexBox.calculateCrossAxisSize`. -/
def calcCrossSize (a : Align) (childCross crossAxis : JSNum) : JSNum :=
  if a = Align.stretch then crossAxis else childCross

/-- The measure phase of `performLayout` for one child: its
`(mainSize, crossSize)` pair, axis-mapped by `direction`. -/
def childMainCross (isRow : Bool) (contentWidth contentHeight : JSNum) :
    ChildKind → JSNum × JSNum
  | ChildKind.measurable w h MeasureMode.proportional =>
      (if isRow then jmul contentWidth (some w) else jmul contentHeight (some h),
       if isRow then jmul contentHeight (some h) else jmul contentWidth (some w))
  | ChildKind.measurable w h MeasureMode.absolute =>
      (some (if isRow then w else h), some (if isRow then h else w))
  | ChildKind.unmeasurable => (some 0, some 0)

/-- The positioning loop of `performLayout`: walks the measured children,
placing child `i` at the main-axis cursor and advancing the cursor by
`mainSize + (i < n - 1 ? gap : 0) + spaceBetween`. -/
def positionLoop (f : FlexData) (bounds : BoundsR) (crossAxis : JSNum)
    (isRow : Bool) (between : JSNum) :
    List (JSNum × JSNum) → JSNum → List Rect
  | [], _ => []
  | (mainSize, childCross) :: rest, currentPos =>
      let crossPos := calcCrossPos f.align childCross crossAxis
      let finalCross := calcCrossSize f.align childCross crossAxis
      let slot : Rect :=
        if isRow then
          ⟨jadd (jadd bounds.x (some f.padding)) currentPos,
           jadd (jadd bounds.y (some f.padding)) crossPos,
           mainSize, finalCross⟩
        else
          ⟨jadd (jadd bounds.x (some f.padding)) crossPos,
           jadd (jadd bounds.y (some f.padding)) currentPos,
           finalCross, mainSize⟩
      slot :: positionLoop f bounds crossAxis isRow between rest
        (jadd currentPos
          (jadd (jadd mainSize (some (if rest.isEmpty then 0 else f.gap)))
            between))

/-- The body of `performLayout` after the container's own bounds have been
resolved: clears the cache (empty list), returns early when there are no
children, and otherwise measures and positions every child. -/
def computeSlots (f : FlexData) (bounds : BoundsR) (cs : List ChildKind) :
    List Rect :=
  let contentWidth := jsub bounds.width (some (f.padding * 2))
  let contentHeight := jsub bounds.height (some (f.padding * 2))
  if cs.length = 0 then []
  else
    let isRow := f.direction == Dir.row
    let mainAxisSize := if isRow then contentWidth else contentHeight
    let crossAxisSize := if isRow then contentHeight else contentWidth
    let totalGap := f.gap * ((cs.length : ℚ) - 1)
    let sizes := cs.map (childMainCross isRow contentWidth contentHeight)
    let totalChildSize := sizes.foldl (fun sum s => jadd sum s.1) (some 0)
    let remaining := jsub (jsub mainAxisSize totalChildSize) (some totalGap)
    let start := calcJustifyStart f.justify cs.length remaining
    let between := calcSpaceBetween f.justify remaining cs.length
    positionLoop f bounds crossAxisSize isRow between sizes start

/-- `FlexBox.performLayout` as a transition on the `childLayouts` cache:
`this.getBounds()` is called first with no page argument and, when it
throws, the pass aborts with the old cache intact (the `clear` happens after
that call); otherwise the cache is fully replaced by the freshly computed
slots.  Returns the new cache together with the raised error, if any. -/
def performLayoutSt (f : FlexData) (par : Parent) (cs : List ChildKind)
    (old : List Rect) : List Rect × Option Err :=
  match flexGetBounds f par none with
  | Except.error e => (old, some e)
  | Except.ok b => (computeSlots f b cs, none)

/-- The node tree as built by `addChild` / `addChildren`: the four concrete
variants exported by the repository, each owning its children in insertion
order.  Fields irrelevant to geometry and paint order (colors, image source,
text content, alignment hints) are omitted: no claim reads them. -/
inductive Node where
  | box (g : BoxGeom) (children : List Node) : Node
  | image (g : BoxGeom) (children : List Node) : Node
  | text (g : BoxGeom) (children : List Node) : Node
  | flex (f : FlexData) (children : List Node) : Node

/-- The measurement interface a node presents to a flex parent: all four
concrete variants pass the `isMeasurable` check. -/
def measureOf : Node → ChildKind
  | Node.box g _ => ChildKind.measurable g.width g.height g.measure
  | Node.image g _ => ChildKind.measurable g.width g.height g.measure
  | Node.text g _ => ChildKind.measurable g.width g.height g.measure
  | Node.flex f _ => ChildKind.measurable f.width f.height f.measure

/-- One draw operation emitted by the `layout` traversal of `src/index.ts`,
tagged with the tree path of the node that emitted it (`[]` is the root,
`p ++ [i]` is child `i` of the node at `p`); the path stands in for the
document-level side effects' provenance. -/
inductive Op where
  | img (path : List ℕ) : Op
  | text (path : List ℕ) : Op
  | border (path : List ℕ) : Op
deriving DecidableEq, Repr

/-- The border emission of `layout`: one stroke operation iff
`node.borderWidth > 0`. -/
def brdOps (bw : ℚ) (p : List ℕ) : List Op :=
  if 0 < bw then [Op.border p] else []

mutual

/-- The recursive `layout(doc, node)` pass of `src/index.ts`, as the list of
draw operations it emits: for a `FlexBox`, `performLayout()` runs first (on
a freshly built tree the cache starts empty); then `getBounds(doc.page)`;
then, per node, image content (if `Image`), the children in order, the text
(if `Text`), and finally the border (if `borderWidth > 0`).  A thrown error
aborts the pass. -/
def renderNode (page : Option PageRect) (par : Parent) :
    Node → List ℕ → Except Err (List Op)
  | Node.box g cs, path =>
      match boxGetBounds g par page with
      | Except.error e => Except.error e
      | Except.ok _ =>
          match renderKids page (fun _ => Parent.ofBox g par) cs path 0 with
          | Except.error e => Except.error e
          | Except.ok cops => Except.ok (cops ++ brdOps g.borderWidth path)
  | Node.image g cs, path =>
      match boxGetBounds g par page with
      | Except.error e => Except.error e
      | Except.ok _ =>
          match renderKids page (fun _ => Parent.ofBox g par) cs path 0 with
          | Except.error e => Except.error e
          | Except.ok cops =>
              Except.ok (Op.img path :: cops ++ brdOps g.borderWidth path)
  | Node.text g cs, path =>
      match boxGetBounds g par page with
      | Except.error e => Except.error e
      | Except.ok _ =>
          match renderKids page (fun _ => Parent.ofBox g par) cs path 0 with
          | Except.error e => Except.error e
          | Except.ok cops =>
              Except.ok (cops ++ [Op.text path] ++ brdOps g.borderWidth path)
  | Node.flex f cs, path =>
      match performLayoutSt f par (cs.map measureOf) [] with
      | (_, some e) => Except.error e
      | (cache, none) =>
          match flexGetBounds f par page with
          | Except.error e => Except.error e
          | Except.ok _ =>
              match renderKids page (fun i => Parent.ofFlex f cache i par)
                  cs path 0 with
              | Except.error e => Except.error e
              | Except.ok cops => Except.ok (cops ++ brdOps f.borderWidth path)

/-- The `for (const child of node.children) layout(doc, child)` loop: child
`i` is rendered with its parent context and path `path ++ [i]`. -/
def renderKids (page : Option PageRect) (mkPar : ℕ → Parent) :
    List Node → List ℕ → ℕ → Except Err (List Op)
  | [], _, _ => Except.ok []
  | c :: rest, path, i =>
      match renderNode page (mkPar i) c (path ++ [i]) with
      | Except.error e => Except.error e
      | Except.ok l =>
          match renderKids page mkPar rest path (i + 1) with
          | Except.error e => Except.error e
          | Except.ok l2 => Except.ok (l ++ l2)

end

/-- Width/height argument of the `Box` constructor: `number | string`. -/
inductive Dim where
  | num (v : ℚ) : Dim
  | str (s : String) : Dim
deriving DecidableEq, Repr

/-- The `props.width.includes("%")` test of the constructor. -/
def includesPercent (s : String) : Bool := s.data.contains '%'

/-- Digit accumulation used by the `parseFloat` model. -/
def digitsToNat (ds : List Char) : ℕ :=
  ds.foldl (fun a c => a * 10 + (c.toNat - '0'.toNat)) 0

/-- Leading digit run of a character list. -/
def takeDigits (cs : List Char) : List Char × List Char :=
  (cs.takeWhile Char.isDigit, cs.dropWhile Char.isDigit)

/-- Optional leading sign of a numeric literal: the sign factor and the
remaining characters. -/
def stripSign (cs : List Char) : ℚ × List Char :=
  match cs with
  | c :: r => if c = '-' then (-1, r) else if c = '+' then (1, r) else (1, cs)
  | [] => (1, cs)

/-- Optional fractional part after the integer digits: the digits following
a dot, if any. -/
def fracDigits (cs : List Char) : List Char :=
  match cs with
  | c :: r => if c = '.' then (takeDigits r).1 else []
  | [] => []

/-- Assembly of a parsed value from sign, integer digits and fractional
digits; NaN (`none`) when no digits were found. -/
def parseWithFrac (sgn : ℚ) (ip fp : List Char) : Option ℚ :=
  if ip = [] ∧ fp = [] then none
  else some (sgn * ((digitsToNat ip : ℚ) + (digitsToNat fp : ℚ) / 10 ^ fp.length))

/-- Model of JavaScript `parseFloat` for the simple decimal literals that
reach it here (optional sign, digits, optional fractional digits, trailing
junk ignored); `none` is NaN, returned when no digits are found.  Exponents,
leading whitespace and `Infinity` are not modelled: no percentage string in
the repository uses them. -/
def jsParseFloat (s : String) : Option ℚ :=
  parseWithFrac (stripSign s.data).1 (takeDigits (stripSign s.data).2).1
    (fracDigits (takeDigits (stripSign s.data).2).2)

/-- The constructor's percentage check for one dimension: a string not
containing `%` is rejected. -/
def dimBad : Dim → Bool
  | Dim.num _ => false
  | Dim.str s => !(includesPercent s)

/-- The constructor's storage for one dimension: a string is parsed with
`parseFloat` and divided by 100. -/
def storeDim : Dim → JSNum
  | Dim.num v => some v
  | Dim.str s => jdiv (jsParseFloat s) (some 100)

/-- The width/height handling of `Box`'s constructor (src/index.ts lines
35-51), shared by `Image` and `Text` via `super(props)`: width is checked
first, then height, then both are stored. -/
def buildBoxWH (w h : Dim) : Except Err (JSNum × JSNum) :=
  if dimBad w then Except.error Err.configuration
  else if dimBad h then Except.error Err.configuration
  else Except.ok (storeDim w, storeDim h)

/-- Optional construction props shared by `Box`, `Image` and `Text`
(src/index.ts lines 55-58). -/
structure BoxPropsOpt where
  padding : Option ℚ
  margin : Option ℚ
  borderWidth : Option ℚ
  borderColor : Option String
deriving DecidableEq, Repr

/-- Optional construction props of `FlexBox` (src/flexbox.ts lines 605-613). -/
structure FlexPropsOpt where
  padding : Option ℚ
  margin : Option ℚ
  borderWidth : Option ℚ
  borderColor : Option String
  direction : Option Dir
  justify : Option Justify
  align : Option Align
  gap : Option ℚ
deriving DecidableEq, Repr

/-- The defaulted common fields produced by a constructor. -/
structure CommonFields where
  padding : ℚ
  margin : ℚ
  borderWidth : ℚ
  borderColor : String
deriving DecidableEq, Repr

/-- Defaulting in `Box`'s constructor: `padding ?? 0`, `margin ?? 0`,
`borderColor ?? "black"`, `borderWidth ?? 0`. -/
def mkBoxFields (p : BoxPropsOpt) : CommonFields :=
  ⟨p.padding.getD 0, p.margin.getD 0, p.borderWidth.getD 0,
   p.borderColor.getD "black"⟩

/-- `Image`'s constructor runs `super(props)`, so its common fields default
exactly as `Box`'s. -/
def mkImageFields (p : BoxPropsOpt) : CommonFields := mkBoxFields p

/-- `Text`'s constructor runs `super(props)`, so its common fields default
exactly as `Box`'s. -/
def mkTextFields (p : BoxPropsOpt) : CommonFields := mkBoxFields p

/-- Defaulting in `FlexBox`'s constructor: `padding ?? 0`, `margin ?? 0`,
`borderColor ?? "black"`, `borderWidth ?? 1`. -/
def mkFlexFields (p : FlexPropsOpt) : CommonFields :=
  ⟨p.padding.getD 0, p.margin.getD 0, p.borderWidth.getD 1,
   p.borderColor.getD "black"⟩

/-! Concrete configurations used by the claim theorems. -/

/-- The 800×600 absolute root of the nested-proportional scenario. -/
def c1Root : BoxGeom := ⟨0, 0, 800, 600, MeasureMode.absolute, 0, 0, 0⟩

/-- The (0.1, 0.1, 0.8, 0.8) proportional container of the scenario. -/
def c1Mid : BoxGeom := ⟨1/10, 1/10, 8/10, 8/10, MeasureMode.proportional, 0, 0, 0⟩

/-- The (0.25, 0.25, 0.5, 0.5) proportional container of the scenario. -/
def c1Inner : BoxGeom := ⟨1/4, 1/4, 1/2, 1/2, MeasureMode.proportional, 0, 0, 0⟩

/-- C1.  Evaluating `Box.getBounds` on the claim's own scenario — the
Proportional container (0.25,0.25,0.5,0.5) inside the Proportional container
(0.1,0.1,0.8,0.8) inside the 800×600 Absolute root — yields NaN in every
coordinate, not `{x:240, y:180, width:320, height:240}`: the root resolves
through the `absolute` branch, whose result object has no `padding`
property, so `baseSize.padding` is `undefined` and the proportional formula
`baseSize.x + baseSize.width * this.x + baseSize.padding` produces NaN,
which then propagates to every nested level.  The repository's own test
suite expects `{240, 180, 320, 240}` for exactly this tree, so the code's
NaN is a slip (the page-derived base explicitly supplies `padding: 0`,
showing the intended default for a base without padding). -/
theorem C1_nested_proportional_nan :
    boxGetBounds c1Inner (Parent.ofBox c1Mid (Parent.ofBox c1Root Parent.nil))
        none
      = Except.ok ⟨none, none, none, none, some 0⟩
    ∧ (⟨none, none, none, none, some 0⟩ : BoundsR)
      ≠ ⟨some 240, some 180, some 320, some 240, some 0⟩ := by
  exact ⟨rfl, by decide⟩

/-- The Text node used to refute the claimed paint order: absolute at
(10, 20), 100×200, `borderWidth = 1`. -/
def c2Text : BoxGeom := ⟨10, 20, 100, 200, MeasureMode.absolute, 0, 0, 1⟩

/-- C2 counterexample.  For a childless Text node with `borderWidth > 0`,
one `layout` pass emits the text operation and then the border operation —
not, as claimed, the border first and the text above it. -/
theorem C2_text_before_border_counterexample :
    renderNode none Parent.nil (Node.text c2Text []) []
      = Except.ok [Op.text [], Op.border []]
    ∧ [Op.text ([] : List ℕ), Op.border []] ≠ [Op.border [], Op.text []] := by
  refine ⟨?_, by decide⟩
  simp [renderNode, renderKids, boxGetBounds, c2Text, brdOps]

/-- Image content emitted by one node of the `layout` pass: one image
operation iff the node is an `Image`. -/
def imgOps : Node → List ℕ → List Op
  | Node.image _ _, p => [Op.img p]
  | _, _ => []

/-- Text emitted by one node of the `layout` pass: one text operation iff
the node is a `Text`. -/
def textOps : Node → List ℕ → List Op
  | Node.text _ _, p => [Op.text p]
  | _, _ => []

/-- The `borderWidth` field of a node. -/
def borderWidthOf : Node → ℚ
  | Node.box g _ => g.borderWidth
  | Node.image g _ => g.borderWidth
  | Node.text g _ => g.borderWidth
  | Node.flex f _ => f.borderWidth

/-- C2 amended.  One successful rendering pass emits, per node: image
content (if the node is an Image), then the blocks of all children in
insertion order, then the text (if the node is a Text), then the border (if
`borderWidth > 0`) — so for a Text node with `borderWidth > 0` its border is
painted after (above) its own text. -/
theorem C2_amended_paint_order (page : Option PageRect) (par : Parent)
    (n : Node) (path : List ℕ) (l : List Op)
    (h : renderNode page par n path = Except.ok l) :
    ∃ cops, l = imgOps n path ++ cops ++ textOps n path
      ++ brdOps (borderWidthOf n) path := by
  cases n with
  | box g cs =>
      simp only [renderNode] at h
      cases hb : boxGetBounds g par page with
      | error e => rw [hb] at h; exact absurd h (by simp)
      | ok b =>
          rw [hb] at h
          cases hk : renderKids page (fun _ => Parent.ofBox g par) cs path 0 with
          | error e => rw [hk] at h; exact absurd h (by simp)
          | ok cops =>
              rw [hk] at h
              refine ⟨cops, ?_⟩
              simp only [Except.ok.injEq] at h
              simp [← h, imgOps, textOps, borderWidthOf]
  | image g cs =>
      simp only [renderNode] at h
      cases hb : boxGetBounds g par page with
      | error e => rw [hb] at h; exact absurd h (by simp)
      | ok b =>
          rw [hb] at h
          cases hk : renderKids page (fun _ => Parent.ofBox g par) cs path 0 with
          | error e => rw [hk] at h; exact absurd h (by simp)
          | ok cops =>
              rw [hk] at h
              refine ⟨cops, ?_⟩
              simp only [Except.ok.injEq] at h
              simp [← h, imgOps, textOps, borderWidthOf]
  | text g cs =>
      simp only [renderNode] at h
      cases hb : boxGetBounds g par page with
      | error e => rw [hb] at h; exact absurd h (by simp)
      | ok b =>
          rw [hb] at h
          cases hk : renderKids page (fun _ => Parent.ofBox g par) cs path 0 with
          | error e => rw [hk] at h; exact absurd h (by simp)
          | ok cops =>
              rw [hk] at h
              refine ⟨cops, ?_⟩
              simp only [Except.ok.injEq] at h
              simp [← h, imgOps, textOps, borderWidthOf]
  | flex f cs =>
      simp only [renderNode] at h
      cases hp : performLayoutSt f par (cs.map measureOf) [] with
      | mk cache err =>
          rw [hp] at h
          cases err with
          | some e => exact absurd h (by simp)
          | none =>
              dsimp only at h
              cases hb : flexGetBounds f par page with
              | error e => rw [hb] at h; exact absurd h (by simp)
              | ok b =>
                  rw [hb] at h
                  dsimp only at h
                  cases hk : renderKids page (fun i => Parent.ofFlex f cache i par)
                      cs path 0 with
                  | error e => rw [hk] at h; exact absurd h (by simp)
                  | ok cops =>
                      rw [hk] at h
                      refine ⟨cops, ?_⟩
                      simp only [Except.ok.injEq] at h
                      simp [← h, imgOps, textOps, borderWidthOf]

/-- Witness for the amended C2 theorem at a concrete input: the childless
Text node above renders successfully, and its operations decompose as
image-part, children, text, border. -/
theorem C2_amended_paint_order_witness :
    ∃ cops, [Op.text ([] : List ℕ), Op.border []]
      = imgOps (Node.text c2Text []) [] ++ cops
        ++ textOps (Node.text c2Text []) []
        ++ brdOps (borderWidthOf (Node.text c2Text [])) [] :=
  C2_amended_paint_order none Parent.nil (Node.text c2Text []) []
    [Op.text [], Op.border []]
    (by simp [renderNode, renderKids, boxGetBounds, c2Text, brdOps])

/-- A proportional `FlexBox` with no parent, used to show that a
distribution pass can raise. -/
def c3Flex : FlexData :=
  ⟨0, 0, 1, 1, MeasureMode.proportional, 0, 0, 1, Dir.row, Justify.flexStart,
   Align.flexStart, 0⟩

/-- C3 counterexample.  A distribution pass is not error-free for every
measurement mode and parent: `performLayout` first resolves the container's
own rectangle via `this.getBounds()`, and for a proportional `FlexBox`
without a parent that call throws (here `missingAnchor`), aborting the pass
with the old cache intact. -/
theorem C3_distribution_can_raise :
    performLayoutSt c3Flex Parent.nil
        [ChildKind.measurable 10 10 MeasureMode.absolute] []
      = ([], some Err.missingAnchor) := rfl

/-- Auxiliary: the positioning loop emits exactly one rectangle per measured
child. -/
theorem positionLoop_length (f : FlexData) (bounds : BoundsR)
    (crossAxis : JSNum) (isRow : Bool) (between : JSNum) :
    ∀ (sizes : List (JSNum × JSNum)) (cur : JSNum),
      (positionLoop f bounds crossAxis isRow between sizes cur).length
        = sizes.length := by
  intro sizes
  induction sizes with
  | nil => intro cur; rfl
  | cons s rest ih =>
      intro cur
      cases s with
      | mk a b => simp [positionLoop, ih]

/-- Auxiliary: the distribution arithmetic stores one rectangle per child. -/
theorem computeSlots_length (f : FlexData) (b : BoundsR)
    (cs : List ChildKind) : (computeSlots f b cs).length = cs.length := by
  unfold computeSlots
  by_cases h : cs.length = 0
  · simp [h]
  · simp [h, positionLoop_length]

/-- C3 amended.  A distribution pass never raises an error of its own: the
only error it can raise comes from resolving the container's own rectangle
(the pageless `this.getBounds()` call).  Whenever that resolution succeeds,
`performLayout` completes for every choice of children, justify/align modes
and gap, fully replacing the cache with one rectangle per child. -/
theorem C3_amended_distribution_total (f : FlexData) (par : Parent)
    (cs : List ChildKind) (old : List Rect) (b : BoundsR)
    (h : flexGetBounds f par none = Except.ok b) :
    performLayoutSt f par cs old = (computeSlots f b cs, none)
    ∧ (computeSlots f b cs).length = cs.length := by
  refine ⟨?_, computeSlots_length f b cs⟩
  simp [performLayoutSt, h]

/-- An absolute 400×100 row `FlexBox`, as in the repository's flex tests. -/
def c3OkFlex : FlexData :=
  ⟨0, 0, 400, 100, MeasureMode.absolute, 0, 0, 1, Dir.row, Justify.flexStart,
   Align.flexStart, 0⟩

/-- Witness for the amended C3 theorem: for the absolute container its own
resolution succeeds, and the pass completes with one slot for its single
child. -/
theorem C3_amended_distribution_total_witness :
    performLayoutSt c3OkFlex Parent.nil
        [ChildKind.measurable 100 50 MeasureMode.absolute] []
      = (computeSlots c3OkFlex (absoluteRect 0 0 400 100 0)
          [ChildKind.measurable 100 50 MeasureMode.absolute], none)
    ∧ (computeSlots c3OkFlex (absoluteRect 0 0 400 100 0)
        [ChildKind.measurable 100 50 MeasureMode.absolute]).length
      = [ChildKind.measurable 100 50 MeasureMode.absolute].length :=
  C3_amended_distribution_total c3OkFlex Parent.nil
    [ChildKind.measurable 100 50 MeasureMode.absolute] []
    (absoluteRect 0 0 400 100 0) rfl

/-- C4.  For a distribution pass with `n ≥ 1` children and main-axis slack
`remaining`, the main-axis start offset (`calculateJustifyStart`) and the
between-children extra spacing (`calculateSpaceBetween`) are exactly:
flex-start (0, 0); flex-end (remaining, 0); center (remaining/2, 0);
space-between (0, remaining/(n−1) if n > 1 else 0); space-around
(remaining/(2n), remaining/n); space-evenly (remaining/(n+1),
remaining/(n+1)). -/
theorem C4_justify_start_between (n : ℕ) (r : ℚ) (_hn : 1 ≤ n) :
    (calcJustifyStart Justify.flexStart n (some r) = some 0
      ∧ calcSpaceBetween Justify.flexStart (some r) n = some 0)
    ∧ (calcJustifyStart Justify.flexEnd n (some r) = some r
      ∧ calcSpaceBetween Justify.flexEnd (some r) n = some 0)
    ∧ (calcJustifyStart Justify.center n (some r) = some (r / 2)
      ∧ calcSpaceBetween Justify.center (some r) n = some 0)
    ∧ (calcJustifyStart Justify.spaceBetween n (some r) = some 0
      ∧ calcSpaceBetween Justify.spaceBetween (some r) n
          = if 1 < n then some (r / ((n : ℚ) - 1)) else some 0)
    ∧ (calcJustifyStart Justify.spaceAround n (some r)
          = some (r / (2 * (n : ℚ)))
      ∧ calcSpaceBetween Justify.spaceAround (some r) n = some (r / (n : ℚ)))
    ∧ (calcJustifyStart Justify.spaceEvenly n (some r)
          = some (r / ((n : ℚ) + 1))
      ∧ calcSpaceBetween Justify.spaceEvenly (some r) n
          = some (r / ((n : ℚ) + 1))) := by
  refine ⟨⟨rfl, rfl⟩, ⟨rfl, rfl⟩, ⟨rfl, rfl⟩, ⟨rfl, ?_⟩, ⟨?_, rfl⟩, ⟨rfl, rfl⟩⟩
  · by_cases h : 1 < n <;> simp [calcSpaceBetween, h, jdiv]
  · simp [calcJustifyStart, jdiv, mul_comm]

/-- Witness for C4 at the boundary the claim singles out: a single child
(`n = 1`) under space-between yields start 0 and between 0, with no division
by zero. -/
theorem C4_justify_start_between_witness :
    1 ≤ 1
    ∧ calcJustifyStart Justify.spaceBetween 1 (some 7) = some 0
    ∧ calcSpaceBetween Justify.spaceBetween (some 7) 1 = some 0 := by
  have h := (C4_justify_start_between 1 7 (by decide)).2.2.2.1
  exact ⟨by decide, h.1, by simpa using h.2⟩

/-- C5.  For a Proportional node whose parent is a `FlexBox`: while the
parent's cache has no entry for the node (in particular before any
distribution pass, when the cache is empty), resolution throws
`layoutNotComputed`; once the cache holds a slot for it, resolution returns
the slot inset by the node's margin.  Stated for `Box`-family nodes and for
nested `FlexBox` nodes, whose flex-parent branches are identical. -/
theorem C5_flex_parent_resolution (g : BoxGeom) (f' : FlexData)
    (f : FlexData) (par : Parent) (i : ℕ) (page : Option PageRect)
    (hg : g.measure = MeasureMode.proportional)
    (hf : f'.measure = MeasureMode.proportional) :
    (∀ cache : List Rect, cache.get? i = none →
        boxGetBounds g (Parent.ofFlex f cache i par) page
          = Except.error Err.layoutNotComputed)
    ∧ (∀ (cache : List Rect) (slot : Rect), cache.get? i = some slot →
        boxGetBounds g (Parent.ofFlex f cache i par) page
          = Except.ok ⟨jadd slot.x (some g.margin), jadd slot.y (some g.margin),
              jsub slot.width (some (g.margin * 2)),
              jsub slot.height (some (g.margin * 2)), none⟩)
    ∧ (∀ cache : List Rect, cache.get? i = none →
        flexGetBounds f' (Parent.ofFlex f cache i par) page
          = Except.error Err.layoutNotComputed)
    ∧ (∀ (cache : List Rect) (slot : Rect), cache.get? i = some slot →
        flexGetBounds f' (Parent.ofFlex f cache i par) page
          = Except.ok ⟨jadd slot.x (some f'.margin),
              jadd slot.y (some f'.margin),
              jsub slot.width (some (f'.margin * 2)),
              jsub slot.height (some (f'.margin * 2)), none⟩) := by
  refine ⟨?_, ?_, ?_, ?_⟩ <;> intro cache <;>
    simp only [List.get?_eq_getElem?]
  · intro hc; simp [boxGetBounds, hg, hc]
  · intro slot hc; simp [boxGetBounds, hg, hc, slotStep]
  · intro hc; simp [flexGetBounds, hf, hc]
  · intro slot hc; simp [flexGetBounds, hf, hc, slotStep]

/-- A proportional half-size box used as a concrete flex child. -/
def c5Child : BoxGeom := ⟨0, 0, 1/2, 1, MeasureMode.proportional, 0, 0, 0⟩

/-- Witness for C5: with the empty (never populated) cache the concrete
child's resolution throws `layoutNotComputed`; with a populated cache it
returns the slot inset by its margin. -/
theorem C5_flex_parent_resolution_witness :
    boxGetBounds c5Child (Parent.ofFlex c3OkFlex [] 0 Parent.nil) none
      = Except.error Err.layoutNotComputed
    ∧ boxGetBounds c5Child
        (Parent.ofFlex c3OkFlex [⟨some 0, some 0, some 200, some 100⟩] 0
          Parent.nil) none
      = Except.ok ⟨jadd (some 0) (some c5Child.margin),
          jadd (some 0) (some c5Child.margin),
          jsub (some 200) (some (c5Child.margin * 2)),
          jsub (some 100) (some (c5Child.margin * 2)), none⟩ := by
  have h := C5_flex_parent_resolution c5Child c3Flex c3OkFlex Parent.nil 0 none
    rfl rfl
  exact ⟨h.1 [] rfl, h.2.1 [⟨some 0, some 0, some 200, some 100⟩]
    ⟨some 0, some 0, some 200, some 100⟩ rfl⟩

/-- C6.  A Proportional node with no parent and no supplied page rectangle
does not resolve to a rectangle: both `Box.getBounds` and
`FlexBox.getBounds` throw the missing-anchor error. -/
theorem C6_missing_anchor (g : BoxGeom) (f : FlexData) :
    (g.measure = MeasureMode.proportional →
        boxGetBounds g Parent.nil none = Except.error Err.missingAnchor)
    ∧ (f.measure = MeasureMode.proportional →
        flexGetBounds f Parent.nil none = Except.error Err.missingAnchor) := by
  constructor
  · intro h; simp [boxGetBounds, h]
  · intro h; simp [flexGetBounds, h]

/-- Witness for C6 at concrete parentless proportional nodes. -/
theorem C6_missing_anchor_witness :
    boxGetBounds c1Mid Parent.nil none = Except.error Err.missingAnchor
    ∧ flexGetBounds c3Flex Parent.nil none = Except.error Err.missingAnchor :=
  ⟨(C6_missing_anchor c1Mid c3Flex).1 rfl,
   (C6_missing_anchor c1Mid c3Flex).2 rfl⟩

/-- C7.  Running the distribution pass twice on an unchanged container
(same resolved rectangle inputs, same children) leaves the cache exactly as
one run does: the pass is a pure function of the container's configuration
and parent chain, and it fully replaces the cache (or, when its own bounds
resolution throws, leaves the cache untouched in both runs). -/
theorem C7_distribution_idempotent (f : FlexData) (par : Parent)
    (cs : List ChildKind) (old : List Rect) :
    (performLayoutSt f par cs (performLayoutSt f par cs old).1).1
      = (performLayoutSt f par cs old).1 := by
  unfold performLayoutSt
  cases flexGetBounds f par none <;> simp

/-- C8.  An Absolute node resolves to `{x + margin, y + margin, width −
2·margin, height − 2·margin}` from its own fields alone: the parent chain
and the page rectangle are universally quantified and do not appear in the
result.  Stated for `Box`-family nodes and for `FlexBox` nodes. -/
theorem C8_absolute_resolution (g : BoxGeom) (f : FlexData)
    (par parF : Parent) (page pageF : Option PageRect)
    (hg : g.measure = MeasureMode.absolute)
    (hf : f.measure = MeasureMode.absolute) :
    boxGetBounds g par page
      = Except.ok ⟨some (g.x + g.margin), some (g.y + g.margin),
          some (g.width - g.margin * 2), some (g.height - g.margin * 2), none⟩
    ∧ flexGetBounds f parF pageF
      = Except.ok ⟨some (f.x + f.margin), some (f.y + f.margin),
          some (f.width - f.margin * 2), some (f.height - f.margin * 2),
          none⟩ := by
  constructor
  · rw [boxGetBounds.eq_def]; simp [hg, absoluteRect]
  · rw [flexGetBounds.eq_def]; simp [hf, absoluteRect]

/-- Witness for C8 at the absolute box of the repository's tests
((10, 20), 100×200, margin 5): bounds (15, 25, 90, 190), for an arbitrary
parent chain and page. -/
theorem C8_absolute_resolution_witness :
    boxGetBounds ⟨10, 20, 100, 200, MeasureMode.absolute, 0, 5, 1⟩
        (Parent.ofBox c1Root Parent.nil) (some ⟨600, 800, 0, 0, 0, 0⟩)
      = Except.ok ⟨some (10 + 5), some (20 + 5), some (100 - 5 * 2),
          some (200 - 5 * 2), none⟩
    ∧ flexGetBounds c3OkFlex Parent.nil none
      = Except.ok ⟨some (0 + 0), some (0 + 0), some (400 - 0 * 2),
          some (100 - 0 * 2), none⟩ :=
  C8_absolute_resolution ⟨10, 20, 100, 200, MeasureMode.absolute, 0, 5, 1⟩
    c3OkFlex (Parent.ofBox c1Root Parent.nil) Parent.nil
    (some ⟨600, 800, 0, 0, 0, 0⟩) none rfl rfl

/-- C10.  Constructing a `FlexBox` without `borderWidth` defaults it to 1
(its border is drawn by default), while constructing a `Box`, `Image` or
`Text` without `borderWidth` defaults it to 0 (border drawing suppressed). -/
theorem C10_border_width_defaults (pb : BoxPropsOpt) (pf : FlexPropsOpt)
    (hb : pb.borderWidth = none) (hf : pf.borderWidth = none) :
    (mkBoxFields pb).borderWidth = 0
    ∧ (mkImageFields pb).borderWidth = 0
    ∧ (mkTextFields pb).borderWidth = 0
    ∧ (mkFlexFields pf).borderWidth = 1 := by
  refine ⟨?_, ?_, ?_, ?_⟩ <;>
    simp [mkBoxFields, mkImageFields, mkTextFields, mkFlexFields, hb, hf]

/-- Witness for C10 at fully default construction props. -/
theorem C10_border_width_defaults_witness :
    (mkBoxFields ⟨none, none, none, none⟩).borderWidth = 0
    ∧ (mkImageFields ⟨none, none, none, none⟩).borderWidth = 0
    ∧ (mkTextFields ⟨none, none, none, none⟩).borderWidth = 0
    ∧ (mkFlexFields ⟨none, none, none, none, none, none, none, none⟩).borderWidth
      = 1 :=
  C10_border_width_defaults ⟨none, none, none, none⟩
    ⟨none, none, none, none, none, none, none, none⟩ rfl rfl

/-- Auxiliary: a run of digits followed by `%` is taken whole by the
digit-prefix scan. -/
theorem takeWhile_digits (ds : List Char) (h : ∀ c ∈ ds, c.isDigit) :
    (ds ++ ['%']).takeWhile Char.isDigit = ds := by
  induction ds with
  | nil => rfl
  | cons c t ih =>
      have hc : c.isDigit = true := h c (by simp)
      simp only [List.cons_append, List.takeWhile_cons, hc, if_true]
      rw [ih (fun d hd => h d (by simp [hd]))]

/-- Auxiliary: after a run of digits followed by `%`, the digit-prefix scan
leaves exactly the `%`. -/
theorem dropWhile_digits (ds : List Char) (h : ∀ c ∈ ds, c.isDigit) :
    (ds ++ ['%']).dropWhile Char.isDigit = ['%'] := by
  induction ds with
  | nil => rfl
  | cons c t ih =>
      have hc : c.isDigit = true := h c (by simp)
      simp only [List.cons_append, List.dropWhile_cons, hc, if_true]
      exact ih (fun d hd => h d (by simp [hd]))

/-- Auxiliary: the `parseFloat` model reads a nonempty digit run followed by
`%` as that run's numeric value (the `%` is trailing junk). -/
theorem jsParseFloat_digits (ds : List Char) (h1 : ds ≠ [])
    (h2 : ∀ c ∈ ds, c.isDigit) :
    jsParseFloat (String.mk (ds ++ ['%'])) = some (digitsToNat ds : ℚ) := by
  cases ds with
  | nil => exact absurd rfl h1
  | cons c t =>
      have hc : c.isDigit = true := h2 c (by simp)
      have hcm : ¬ c = '-' := by
        intro e; rw [e] at hc; exact absurd hc (by decide)
      have hcp : ¬ c = '+' := by
        intro e; rw [e] at hc; exact absurd hc (by decide)
      have hs : stripSign ((c :: t) ++ ['%']) = (1, (c :: t) ++ ['%']) := by
        simp [stripSign, hcm, hcp]
      have ht : takeDigits ((c :: t) ++ ['%']) = (c :: t, ['%']) := by
        unfold takeDigits
        rw [takeWhile_digits (c :: t) h2, dropWhile_digits (c :: t) h2]
      have hdata : (String.mk ((c :: t) ++ ['%'])).data = (c :: t) ++ ['%'] :=
        rfl
      unfold jsParseFloat
      rw [hdata, hs]
      simp only [ht]
      have hf : fracDigits ['%'] = [] := rfl
      rw [hf]
      simp [parseWithFrac, digitsToNat]

/-- Auxiliary: `Box.getBounds` can throw only the missing-anchor and
not-yet-computed errors, never the construction-time configuration error. -/
theorem boxGetBounds_ne_configuration (par : Parent) (g : BoxGeom)
    (page : Option PageRect) :
    boxGetBounds g par page ≠ Except.error Err.configuration := by
  induction par generalizing g page with
  | nil =>
      cases page with
      | none => rw [boxGetBounds.eq_def]; split <;> simp
      | some pr => rw [boxGetBounds.eq_def]; split <;> simp
  | ofBox pg ppar ih =>
      rw [boxGetBounds.eq_def]
      split
      · simp
      · dsimp only
        cases hb : boxGetBounds pg ppar page with
        | error e =>
            intro hcontra
            dsimp only at hcontra
            simp only [Except.error.injEq] at hcontra
            exact ih pg page (by rw [hb, hcontra])
        | ok base => simp
  | ofFlex pf cache i ppar ih =>
      rw [boxGetBounds.eq_def]
      split
      · simp
      · dsimp only
        cases hc : cache.get? i with
        | none => simp [List.get?_eq_getElem?] at hc; simp [hc]
        | some slot => simp [List.get?_eq_getElem?] at hc; simp [hc]

/-- Auxiliary: `FlexBox.getBounds` likewise never throws the configuration
error. -/
theorem flexGetBounds_ne_configuration (f : FlexData) (par : Parent)
    (page : Option PageRect) :
    flexGetBounds f par page ≠ Except.error Err.configuration := by
  rw [flexGetBounds.eq_def]
  split
  · simp
  · match par with
    | Parent.nil => simp
    | Parent.ofFlex pf cache i ppar =>
        dsimp only
        cases hc : cache.get? i with
        | none => simp [List.get?_eq_getElem?] at hc; simp [hc]
        | some slot => simp [List.get?_eq_getElem?] at hc; simp [hc]
    | Parent.ofBox pg ppar =>
        dsimp only
        cases hb : boxGetBounds pg ppar page with
        | error e =>
            intro hcontra
            dsimp only at hcontra
            simp only [Except.error.injEq] at hcontra
            exact boxGetBounds_ne_configuration ppar pg page
              (by rw [hb, hcontra])
        | ok base => simp

/-- C9.  Construction with a string width or height raises the
configuration error exactly when that string does not carry the `%` unit
specifier; a digit string `p%` is stored as the fraction `p/100`; and
resolution (`getBounds` of either class) never raises the configuration
error. -/
theorem C9_percentage_unit_check :
    (∀ w h : Dim, buildBoxWH w h = Except.error Err.configuration ↔
        (∃ s, w = Dim.str s ∧ includesPercent s = false)
        ∨ (∃ s, h = Dim.str s ∧ includesPercent s = false))
    ∧ (∀ ds : List Char, ds ≠ [] → (∀ c ∈ ds, c.isDigit) →
        buildBoxWH (Dim.str (String.mk (ds ++ ['%']))) (Dim.num 1)
          = Except.ok (some ((digitsToNat ds : ℚ) / 100), some 1))
    ∧ (∀ (g : BoxGeom) (par : Parent) (page : Option PageRect),
        boxGetBounds g par page ≠ Except.error Err.configuration)
    ∧ (∀ (f : FlexData) (par : Parent) (page : Option PageRect),
        flexGetBounds f par page ≠ Except.error Err.configuration) := by
  refine ⟨?_, ?_, fun g par page => boxGetBounds_ne_configuration par g page,
    fun f par page => flexGetBounds_ne_configuration f par page⟩
  · intro w h
    cases w with
    | num v =>
        cases h with
        | num u => simp [buildBoxWH, dimBad]
        | str s =>
            by_cases hp : includesPercent s <;>
              simp [buildBoxWH, dimBad, hp]
    | str s =>
        cases h with
        | num u =>
            by_cases hp : includesPercent s <;>
              simp [buildBoxWH, dimBad, hp]
        | str s2 =>
            by_cases hp : includesPercent s <;>
              by_cases hp2 : includesPercent s2 <;>
                simp [buildBoxWH, dimBad, hp, hp2]
  · intro ds h1 h2
    have hparse := jsParseFloat_digits ds h1 h2
    have hip : includesPercent (String.mk (ds ++ ['%'])) = true := by
      simp [includesPercent]
    simp [buildBoxWH, dimBad, hip, storeDim, hparse, jdiv]

/-- Witness for C9: the percentage string "50%" is accepted and stored as
the fraction 1/2. -/
theorem C9_percentage_unit_check_witness :
    buildBoxWH (Dim.str "50%") (Dim.num 1)
      = Except.ok (some ((1 : ℚ) / 2), some 1) := by
  have h := C9_percentage_unit_check.2.1 ['5', '0'] (by decide) (by decide)
  have hs : String.mk (['5', '0'] ++ ['%']) = "50%" := rfl
  have hd : digitsToNat ['5', '0'] = 50 := rfl
  rw [hs, hd] at h
  rw [h]
  norm_num
